import Mathlib

/-!
Verification of the reconciliation/parsing core of `tmuxp` (`src/tmuxp/server.py`)
against its natural-language specification.

The Python module is shallowly embedded: the external `tmux(1)` binary is an
oracle `Gateway` mapping a full argument list to a captured result
(stdout lines, stderr text); the mutable `Server` object is an explicit
`ServerState`; Python object identity is modelled by a `ref : Nat` tag
allocated from a monotone counter (`nextRef`); Python exceptions become
`Except` values, and since mutations of global state (the process
environment) survive a raised exception, stateful operations return the
final state alongside the `Except` result.
-/

set_option autoImplicit false

namespace Tmuxp

/-- Result of one external `tmux` invocation, as captured by the
process-execution layer: stdout as a list of lines plus stderr text. -/
structure TmuxResult where
  stdout : List String
  stderr : String
deriving DecidableEq, Repr

/-- The external server process, modelled as a deterministic oracle from the
full argument list to the captured result. -/
abbrev Gateway := List String → TmuxResult

/-- A Python dict with string keys and values, with insertion order. -/
abbrev Dict := List (String × String)

/-- An entity record: a Python dict tagged with an object-identity token. -/
structure Rec where
  ref : Nat
  attrs : Dict
deriving DecidableEq, Repr

/-- A Python list object: its contents plus its own identity token, so that
in-place mutation (`lst[:] = []`, `lst.extend(..)`) is distinguishable from
rebinding the attribute to a fresh list. -/
structure PyList where
  ref : Nat
  items : List Rec
deriving DecidableEq, Repr

/-- Python truthiness of an optional string (`if x:` where `x` is a string
attribute defaulting to `None`): `None` and the empty string are falsy. -/
def truthy : Option String → Bool
  | none => false
  | some s => s ≠ ""

/-- `str.split('\t')`, on the character list: no merging of adjacent
delimiters, empty string yields `[""]`. -/
def splitTabsAux : List Char → List Char → List String
  | [], acc => [String.mk acc.reverse]
  | c :: cs, acc =>
      if c = '\t' then String.mk acc.reverse :: splitTabsAux cs []
      else splitTabsAux cs (c :: acc)

/-- Python `line.split('\t')`. -/
def splitTabs (s : String) : List String :=
  splitTabsAux s.data []

/-- `'\t'.join(xs)`. -/
def joinTabs : List String → String
  | [] => ""
  | [x] => x
  | x :: xs => x ++ "\t" ++ joinTabs xs

/-- `'\n'.join(xs)` (used only to state the spec reading of "response text"). -/
def joinLines : List String → String
  | [] => ""
  | [x] => x
  | x :: xs => x ++ "\n" ++ joinLines xs

/-- Whether `pat` is an initial segment of `s`. -/
def leadsChars : List Char → List Char → Bool
  | [], _ => true
  | _ :: _, [] => false
  | a :: as, b :: bs => a = b && leadsChars as bs

/-- Whether `pat` occurs contiguously inside `s`. -/
def containsSub : List Char → List Char → Bool
  | [], pat => pat.isEmpty
  | s@(_ :: rest), pat => leadsChars pat s || containsSub rest pat

/-- Substring containment on strings (`pat in text` for Python strings). -/
def strContains (s pat : String) : Bool :=
  containsSub s.data pat.data

/-- `d[k] = v` on a Python dict: overwrite in place if the key exists
(keeping its position), else append at the end. -/
def dictSet (d : Dict) (k v : String) : Dict :=
  if d.any (fun kv => kv.1 == k) then
    d.map (fun kv => if kv.1 == k then (k, v) else kv)
  else d ++ [(k, v)]

/-- `dict(pairs)`: build a dict from a pair sequence, later pairs winning. -/
def pyDict (ps : List (String × String)) : Dict :=
  ps.foldl (fun d kv => dictSet d kv.1 kv.2) []

/-- `d.update(patch)`: set each pair of `patch` in order. -/
def pyUpdate (d : Dict) (patch : Dict) : Dict :=
  patch.foldl (fun d kv => dictSet d kv.1 kv.2) d

/-- Python `==` on dicts: same keys, and the same value at every key. -/
def dictEquiv (a b : Dict) : Bool :=
  a.all (fun kv => b.lookup kv.1 == some kv.2) &&
  b.all (fun kv => a.lookup kv.1 == some kv.2)

/-- Modelled from the spec: the repository's `formats` module (the
FormatCatalog, §4.1) is not under `src/`; per the spec it supplies, per
entity kind, an ordered sequence of unique field names. The concrete names
below are representative; no theorem depends on them, only on the shapes. -/
def SESSION_FORMATS : List String :=
  ["session_name", "session_id", "session_attached", "session_created",
   "session_width", "session_height", "session_windows"]

/-- Modelled from the spec: window fields of the FormatCatalog. -/
def WINDOW_FORMATS : List String :=
  ["window_id", "window_index", "window_name", "window_active", "window_panes"]

/-- Modelled from the spec: pane fields of the FormatCatalog. -/
def PANE_FORMATS : List String :=
  ["pane_id", "pane_index", "pane_active", "pane_current_path"]

/-- `'#{%s}' % f`: one output-format template token. -/
def fmtToken (f : String) : String :=
  "#\x7b" ++ f ++ "\x7d"

/-- `'\t'.join(['#{%s}' % f for f in fs])`. -/
def joinFormats (fs : List String) : String :=
  joinTabs (fs.map fmtToken)

/-- The mutable state of a `Server` object, together with the ambient
process environment and the identity-allocation counter. `_clients = none`
models the `_clients` attribute being absent (never set by `__init__`). -/
structure ServerState where
  socket_name : Option String
  socket_path : Option String
  config_file : Option String
  _sessions : PyList
  _windows : PyList
  _panes : PyList
  _clients : Option (List Rec)
  environ : Dict
  nextRef : Nat
deriving DecidableEq, Repr

/-- Python exceptions raised by the module. -/
inductive PyErr where
  | sessionExists (msg : String)
  | execError (msg : String)
  | nameError
  | attributeError
  | keyError
  | indexError
deriving DecidableEq, Repr

/-- `Server.__init__`: initializes `_windows`, `_panes`, `_sessions` (and the
connection flags when truthy); it never initializes `_clients`. The ambient
environment is passed through. List identities 0, 1, 2 are the three fresh
list objects. -/
def Server.init (socket_name socket_path config_file : Option String)
    (environ : Dict) : ServerState :=
  { socket_name := if truthy socket_name then socket_name else none
    socket_path := if truthy socket_path then socket_path else none
    config_file := if truthy config_file then config_file else none
    _sessions := ⟨2, []⟩
    _windows := ⟨0, []⟩
    _panes := ⟨1, []⟩
    _clients := none
    environ := environ
    nextRef := 3 }

/-- `Server.tmux`: prepend the global connection flags (`-L` socket name,
then `-S` socket path, then `-f` config file, each inserted at position 0 in
that order, so the final order is `-f`, `-S`, `-L`) and delegate. -/
def Server.tmuxArgs (st : ServerState) (args : List String) : List String :=
  let args := if truthy st.socket_name then ("-L" ++ st.socket_name.getD "") :: args else args
  let args := if truthy st.socket_path then ("-S" ++ st.socket_path.getD "") :: args else args
  if truthy st.config_file then ("-f" ++ st.config_file.getD "") :: args else args

/-- One output row: `dict(zip(fields, line.split('\t')))` followed by
`dict((k, v) for k, v in row.iteritems() if v)` — positional zip, then the
empty-valued pairs dropped. -/
def parseRow (fields : List String) (line : String) : Dict :=
  (pyDict (fields.zip (splitTabs line))).filter (fun kv => kv.2 ≠ "")

/-- The RecordParser: apply `parseRow` to every stdout line. -/
def pyParse (lines : List String) (fields : List String) : List Dict :=
  lines.map (parseRow fields)

/-- Materialize parsed rows as fresh record objects with consecutive
identity tokens starting at `n`. -/
def allocRecs : Nat → List Dict → List Rec
  | _, [] => []
  | n, d :: ds => ⟨n, d⟩ :: allocRecs (n + 1) ds

/-- Argument list of the `list-sessions` introspection call. -/
def listSessionsCmd (st : ServerState) : List String :=
  Server.tmuxArgs st ["list-sessions", "-F" ++ joinFormats SESSION_FORMATS]

/-- `Server._list_sessions`: run `list-sessions`; non-empty stderr raises
`Exception(stderr)`, else the stdout lines are returned. -/
def _list_sessions (g : Gateway) (st : ServerState) : Except String (List String) :=
  let r := g (listSessionsCmd st)
  if r.stderr ≠ "" then .error r.stderr else .ok r.stdout

/-- `Server._update_sessions`: parse the listing and install it in the
`_sessions` list object in place (`lst[:] = []` then `extend`), so the list
keeps its identity while its contents are replaced wholesale by freshly
materialized records. -/
def _update_sessions (g : Gateway) (st : ServerState) : Except String ServerState :=
  match _list_sessions g st with
  | .error e => .error e
  | .ok lines =>
      let new_sessions := pyParse lines SESSION_FORMATS
      .ok { st with
            _sessions := ⟨st._sessions.ref, allocRecs st.nextRef new_sessions⟩
            nextRef := st.nextRef + new_sessions.length }

/-- `session_name`/`session_id` prefixed onto the window fields. -/
def wformats : List String := ["session_name", "session_id"] ++ WINDOW_FORMATS

/-- Argument list of the `list-windows -a` introspection call. -/
def listWindowsCmd (st : ServerState) : List String :=
  Server.tmuxArgs st ["list-windows", "-a", "-F" ++ joinFormats wformats]

/-- `Server._update_windows` (including `_list_windows`): stderr raises,
else the parsed listing replaces the `_windows` list's contents in place. -/
def _update_windows (g : Gateway) (st : ServerState) : Except String ServerState :=
  let r := g (listWindowsCmd st)
  if r.stderr ≠ "" then .error r.stderr
  else
    let windows := pyParse r.stdout wformats
    .ok { st with
          _windows := ⟨st._windows.ref, allocRecs st.nextRef windows⟩
          nextRef := st.nextRef + windows.length }

/-- Session/window identifiers prefixed onto the pane fields. -/
def pformats : List String :=
  ["session_name", "session_id", "window_index", "window_id"] ++ PANE_FORMATS

/-- `'-F%s' % ''.join(['#{%s}\t' % f for f in pformats])`: note the
per-field trailing delimiter (the duplicated-delimiter code path flagged in
spec §9), embedded as-is. -/
def panesFmtArg : String :=
  "-F" ++ (pformats.map (fun f => fmtToken f ++ "\t")).foldr (fun a b => a ++ b) ""

/-- Argument list of the `list-panes -a` introspection call. -/
def listPanesCmd (st : ServerState) : List String :=
  Server.tmuxArgs st ["list-panes", "-a", panesFmtArg]

/-- `Server._update_panes` (including `_list_panes`): stderr raises, else
the parsed listing replaces the `_panes` list's contents in place. -/
def _update_panes (g : Gateway) (st : ServerState) : Except String ServerState :=
  let r := g (listPanesCmd st)
  if r.stderr ≠ "" then .error r.stderr
  else
    let panes := pyParse r.stdout pformats
    .ok { st with
          _panes := ⟨st._panes.ref, allocRecs st.nextRef panes⟩
          nextRef := st.nextRef + panes.length }

/-- Argument list of the `has-session` existence probe. -/
def hasSessionCmd (st : ServerState) (target_session : String) : List String :=
  Server.tmuxArgs st ["has-session", "-t" ++ target_session]

/-- The decision taken on the probe result: `'marker' in proc.stdout` is
Python list membership over the stdout lines, i.e. some line is exactly the
marker string. -/
def hasSessionRes (r : TmuxResult) : Bool :=
  if r.stdout.contains "failed to connect to server" then false
  else if r.stdout.contains "session not found" then false
  else true

/-- `Server.has_session`. -/
def has_session (g : Gateway) (st : ServerState) (target_session : String) : Bool :=
  hasSessionRes (g (hasSessionCmd st target_session))

/-- Argument list of the `kill-session` call. -/
def killSessionCmd (st : ServerState) (target_session : String) : List String :=
  Server.tmuxArgs st ["kill-session", "-t" ++ target_session]

/-- `Server.kill_session`: raise `Exception(stderr)` when the kill reports
non-empty stderr; otherwise refresh the session collection (which itself
raises when its own listing reports stderr) and return. -/
def kill_session (g : Gateway) (st : ServerState) (target_session : String) :
    (Except PyErr Unit) × ServerState :=
  let r := g (killSessionCmd st target_session)
  if r.stderr ≠ "" then (.error (.execError r.stderr), st)
  else
    match _update_sessions g st with
    | .error e => (.error (.execError e), st)
    | .ok st' => (.ok (), st')

/-- Modelled from the spec: the result object returned by the
process-execution layer (`util.tmux`, not under `src/`) measures, under
`len`, the number of stdout rows (§4.4: "boolean from whether the
client-row count exceeds one"). -/
def tmuxResultLen (r : TmuxResult) : Nat := r.stdout.length

/-- Argument list of the bare `list-clients` call issued by `has_clients`. -/
def listClientsBareCmd (st : ServerState) : List String :=
  Server.tmuxArgs st ["list-clients"]

/-- `Server.has_clients`: `len(self.tmux('list-clients')) > int(1)`. -/
def has_clients (g : Gateway) (st : ServerState) : Bool :=
  if tmuxResultLen (g (listClientsBareCmd st)) > 1 then true else false

/-- The names bound at module level of `src/tmuxp/server.py`: the
`__future__` features, the imports `os`, `tmux`, `TmuxRelationalObject`,
`Session`, `formats`, `logging`, plus `logger` and the `Server` class. -/
def serverModuleScope : List String :=
  ["absolute_import", "division", "print_function", "with_statement",
   "os", "tmux", "TmuxRelationalObject", "Session", "formats", "logging",
   "logger", "Server"]

/-- Python builtins referenced by the module. -/
def pyBuiltins : List String :=
  ["dict", "zip", "set", "len", "list", "tuple", "int", "str", "Exception",
   "property", "format"]

/-- Whether an unqualified name resolves in `Server.list_clients` (no local
binding precedes its first read): module globals, then builtins. -/
def nameResolvable (n : String) : Bool :=
  serverModuleScope.contains n || pyBuiltins.contains n

/-- `client.get('client_tty')`. -/
def ttyOf (r : Rec) : Option String := r.attrs.lookup "client_tty"

/-- `d[k] = v` on a dict keyed by (possibly absent) tty. -/
def recDictSet (d : List (Option String × Rec)) (k : Option String) (v : Rec) :
    List (Option String × Rec) :=
  if d.any (fun kv => kv.1 == k) then
    d.map (fun kv => if kv.1 == k then (k, v) else kv)
  else d ++ [(k, v)]

/-- `{client.get('client_tty'): client for client in rs}`: a dict
comprehension keyed by tty, later records overwriting earlier ones. -/
def recDict (rs : List Rec) : List (Option String × Rec) :=
  rs.foldl (fun d r => recDictSet d (ttyOf r) r) []

/-- `dict(set(n.items()) - set(o.items()))`: the pairs of `n` that are not
pairs of `o` (the deterministic content of that set difference; the
arbitrary set-iteration order of the Python dict build is determinized to
`n`'s attribute order). -/
def diffFor (n o : Dict) : Dict :=
  n.filter (fun kv => !o.contains kv)

/-- `lst.remove(s)`: drop the first element `==`-equal (dict value
equality) to `s`; Python would raise if absent, which cannot happen when
`s` was read from the list. -/
def removeFirstEq : List Rec → Rec → List Rec
  | [], _ => []
  | r :: rest, s =>
      if dictEquiv r.attrs s.attrs then rest else r :: removeFirstEq rest s

/-- `s.update(patch)` through the list: the object with identity `ρ`
(wherever it appears) gets the patch applied; other objects are untouched. -/
def patchByRef (L : List Rec) (ρ : Nat) (patch : Dict) : List Rec :=
  L.map (fun r => if r.ref == ρ then { r with attrs := pyUpdate r.attrs patch } else r)

/-- The `for s in self._clients:` loop of `list_clients`, with CPython's
list-iterator semantics made explicit: the iterator holds an index into the
list being mutated, `remove` shifts later elements left, and the index
still advances — so the element right after a removed one is skipped. The
fuel is the initial length plus one, which the loop never exhausts since
the index grows by one per step and the list never grows. -/
def syncLoop (deleted intersectK : List (Option String))
    (diffOf : Option String → Dict) : Nat → List Rec → Nat → List Rec
  | 0, L, _ => L
  | fuel + 1, L, i =>
      if h : i < L.length then
        let s := L.get ⟨i, h⟩
        let L1 := if deleted.contains (ttyOf s) then removeFirstEq L s else L
        let L2 := if intersectK.contains (ttyOf s) then
            patchByRef L1 s.ref (diffOf (ttyOf s)) else L1
        syncLoop deleted intersectK diffOf fuel L2 (i + 1)
      else L

/-- The reconciliation block of `Server.list_clients` (its diff-patch
policy), as a function of the old collection and the freshly materialized
new records: build the tty-keyed dicts (a KeyError when a new record lacks
`client_tty`, since the new dict is keyed by `client['client_tty']`),
compute created/deleted/intersect key sets and the per-key patch, run the
removal/patch loop over the old collection, then append the created
records. -/
def syncClients (oldC newRecs : List Rec) : Except PyErr (List Rec) :=
  if newRecs.any (fun r => (ttyOf r).isNone) then .error .keyError
  else
    let newD := recDict newRecs
    let oldD := recDict oldC
    let newKeys := newD.map (fun p => p.1)
    let oldKeys := oldD.map (fun p => p.1)
    let created := newKeys.filter (fun k => !oldKeys.contains k)
    let deleted := oldKeys.filter (fun k => !newKeys.contains k)
    let intersectK := newKeys.filter (fun k => oldKeys.contains k)
    let diffOf : Option String → Dict := fun k =>
      match newD.lookup k, oldD.lookup k with
      | some nr, some od => diffFor nr.attrs od.attrs
      | _, _ => []
    let looped := syncLoop deleted intersectK diffOf (oldC.length + 1) oldC 0
    let createdRecs := (newD.filter (fun p => created.contains p.1)).map (fun p => p.2)
    .ok (looped ++ createdRecs)

/-- The `if not self._clients:` branch: each new client is logged — a
KeyError when it lacks `client_tty`, raised before that record is appended
— then appended to the (previously empty) collection. -/
def appendClients : List Rec → List Rec → (Except PyErr Unit) × List Rec
  | acc, [] => (.ok (), acc)
  | acc, c :: rest =>
      match ttyOf c with
      | none => (.error .keyError, acc)
      | some _ => appendClients (acc ++ [c]) rest

/-- Argument list of the formatted `list-clients` call of `list_clients`. -/
def listClientsCmd (st : ServerState) (fmts : List String) : List String :=
  Server.tmuxArgs st ["list-clients", "-F" ++ joinFormats fmts]

/-- The body of `Server.list_clients` after its first statement: run the
listing, materialize the parsed rows as fresh records, then read
`self._clients` (an AttributeError when the attribute was never set), and
apply either the initial-fill branch or the diff-patch reconciliation. -/
def list_clientsBody (g : Gateway) (st : ServerState) (fmts : List String) :
    (Except PyErr (List Rec)) × ServerState :=
  let r := g (listClientsCmd st fmts)
  let parsed := pyParse r.stdout fmts
  let new_clients := allocRecs st.nextRef parsed
  let st := { st with nextRef := st.nextRef + parsed.length }
  match st._clients with
  | none => (.error .attributeError, st)
  | some cs =>
      if cs.isEmpty then
        match appendClients cs new_clients with
        | (.ok _, cs') => (.ok cs', { st with _clients := some cs' })
        | (.error e, cs') => (.error e, { st with _clients := some cs' })
      else
        match syncClients cs new_clients with
        | .error e => (.error e, st)
        | .ok cs' => (.ok cs', { st with _clients := some cs' })

/-- `Server.list_clients`: its first statement is `formats = CLIENT_FORMATS`,
and `CLIENT_FORMATS` is neither a local, nor bound at module level, nor a
builtin, so Python raises a NameError before anything is read or written.
The then-branch is unreachable (`nameResolvable "CLIENT_FORMATS"` computes
to `false`); its placeholder field list is never used. -/
def list_clients (g : Gateway) (st : ServerState) :
    (Except PyErr (List Rec)) × ServerState :=
  if nameResolvable "CLIENT_FORMATS" then list_clientsBody g st []
  else (.error .nameError, st)

/-- Argument list of the `new-session` create call: session name, `-P` to
print the formatted record, the session format string, and `-d` unless
attaching. -/
def newSessionCmd (st : ServerState) (session_name : String) (attach : Bool) :
    List String :=
  Server.tmuxArgs st
    ("new-session" :: ("-s" ++ session_name) :: "-P" ::
      ("-F" ++ joinFormats SESSION_FORMATS) :: (if attach then [] else ["-d"]))

/-- `del os.environ['TMUX']`. -/
def environDelTMUX (d : Dict) : Dict := d.filter (fun kv => kv.1 ≠ "TMUX")

/-- Lines 473–515 of `new_session`, after the existence check: save the
ambient `TMUX` marker and clear it when truthy; issue the create
subcommand; raise on non-empty stderr (before any restore); take the first
stdout line (an IndexError when there is none, also before any restore);
restore the marker; parse the line, build the session wrapper (a fresh
object), refresh the session collection, and return the wrapper. The
returned state is the state at the raise point for error exits, since the
environment mutation survives the exception. -/
def createSessionPhase (g : Gateway) (st : ServerState) (session_name : String)
    (attach : Bool) : (Except PyErr Rec) × ServerState × List (List String) :=
  let env := st.environ.lookup "TMUX"
  let st1 := if truthy env then { st with environ := environDelTMUX st.environ } else st
  let cmd := newSessionCmd st session_name attach
  let r := g cmd
  if r.stderr ≠ "" then (.error (.execError r.stderr), st1, [cmd])
  else
    match r.stdout with
    | [] => (.error .indexError, st1, [cmd])
    | line :: _ =>
        let st2 := if truthy env then
            { st1 with environ := dictSet st1.environ "TMUX" (env.getD "") } else st1
        let session_info := parseRow SESSION_FORMATS line
        let sessionRec : Rec := ⟨st2.nextRef, session_info⟩
        let st3 := { st2 with nextRef := st2.nextRef + 1 }
        match _update_sessions g st3 with
        | .error e => (.error (.execError e), st3, [cmd, listSessionsCmd st3])
        | .ok st4 => (.ok sessionRec, st4, [cmd, listSessionsCmd st3])

/-- `Server.new_session`: probe with `has_session`; when the session exists,
either kill it inline (stderr unchecked) and continue, or execute
`raise TmuxSessionExists(...)` — and the name `TmuxSessionExists` is
neither imported nor defined in the module nor a builtin, so resolving the
callable raises a NameError before any exception object is constructed;
either way that branch issues no further subcommand and touches no state.
Then run the create phase. The third component is the trace of issued
argument lists, in order. -/
def new_session (g : Gateway) (st : ServerState) (session_name : String)
    (kill_session : Bool) (attach : Bool) :
    (Except PyErr Rec) × ServerState × List (List String) :=
  let probe := hasSessionCmd st session_name
  if hasSessionRes (g probe) then
    if kill_session then
      let p := createSessionPhase g st session_name attach
      (p.1, p.2.1, probe :: killSessionCmd st session_name :: p.2.2)
    else
      (.error .nameError, st, [probe])
  else
    let p := createSessionPhase g st session_name attach
    (p.1, p.2.1, probe :: p.2.2)

instance {ε α : Type} [DecidableEq ε] [DecidableEq α] : DecidableEq (Except ε α) := fun a b =>
  match a, b with
  | .error e, .error f =>
      if h : e = f then isTrue (by rw [h]) else isFalse (fun hc => h (by cases hc; rfl))
  | .error _, .ok _ => isFalse (fun hc => Except.noConfusion hc)
  | .ok _, .error _ => isFalse (fun hc => Except.noConfusion hc)
  | .ok x, .ok y =>
      if h : x = y then isTrue (by rw [h]) else isFalse (fun hc => h (by cases hc; rfl))

/-! ### Generic lemmas about the dict and allocation helpers -/

lemma dictSet_fresh (d : Dict) (k v : String)
    (h : d.any (fun kv => kv.1 == k) = false) : dictSet d k v = d ++ [(k, v)] := by
  simp [dictSet, h]

lemma foldl_dictSet_fresh :
    ∀ (ps : List (String × String)) (acc : Dict),
      (∀ kv ∈ ps, ∀ kv' ∈ acc, kv'.1 ≠ kv.1) → (ps.map Prod.fst).Nodup →
      ps.foldl (fun d kv => dictSet d kv.1 kv.2) acc = acc ++ ps := by
  intro ps
  induction ps with
  | nil => intro acc _ _; simp
  | cons kv ps ih =>
      intro acc hfresh hnd
      have hany : acc.any (fun kv' => kv'.1 == kv.1) = false := by
        rw [List.any_eq_false]
        intro kv' hkv'
        simpa using hfresh kv (by simp) kv' hkv'
      rw [List.foldl_cons, dictSet_fresh acc kv.1 kv.2 hany,
        ih (acc ++ [(kv.1, kv.2)]) ?_ (by simpa using hnd.of_cons)]
      · simp
      · intro kv2 h2 kv' h'
        rcases List.mem_append.mp h' with h' | h'
        · exact hfresh kv2 (List.mem_cons_of_mem _ h2) kv' h'
        · have hk : kv.1 ∉ ps.map Prod.fst := by
            simpa using (List.nodup_cons.mp hnd).1
          have : kv2.1 ∈ ps.map Prod.fst := List.mem_map_of_mem _ h2
          simp only [List.mem_singleton] at h'
          subst h'
          intro hc
          rw [hc] at hk
          exact hk this

lemma pyDict_of_nodup (ps : List (String × String))
    (h : (ps.map Prod.fst).Nodup) : pyDict ps = ps := by
  simpa using foldl_dictSet_fresh ps [] (by simp) h

lemma zip_map_fst_sublist {α β : Type} :
    ∀ (l1 : List α) (l2 : List β), ((l1.zip l2).map Prod.fst).Sublist l1
  | [], _ => by simp
  | _ :: _, [] => by simp
  | a :: l1, b :: l2 => by
      simpa using List.Sublist.cons₂ a (zip_map_fst_sublist l1 l2)

lemma allocRecs_map_attrs : ∀ (n : Nat) (ds : List Dict),
    (allocRecs n ds).map Rec.attrs = ds
  | _, [] => rfl
  | n, d :: ds => by simp [allocRecs, allocRecs_map_attrs (n + 1) ds]

lemma allocRecs_ref_lb : ∀ (n : Nat) (ds : List Dict) (r : Rec),
    r ∈ allocRecs n ds → n ≤ r.ref := by
  intro n ds
  induction ds generalizing n with
  | nil => intro r h; simp [allocRecs] at h
  | cons d ds ih =>
      intro r h
      rcases List.mem_cons.mp h with h | h
      · subst h; exact Nat.le_refl _
      · exact Nat.le_of_succ_le (ih (n + 1) r h)

/-! ### C4 -/

/-- C4: parsing zips the fields against the tab-split tokens positionally
and drops every (field, value) pair whose value is empty; the two concrete
examples of the spec hold, and an empty value is never stored. -/
theorem C4_parse_zip_drop_empty :
    pyParse ["a\tb\tc"] ["f1", "f2", "f3"] =
      [[("f1", "a"), ("f2", "b"), ("f3", "c")]] ∧
    pyParse ["a\t\tc"] ["f1", "f2", "f3"] = [[("f1", "a"), ("f3", "c")]] ∧
    (∀ (lines fields : List String) (row : Dict) (kv : String × String),
      row ∈ pyParse lines fields → kv ∈ row → kv.2 ≠ "") ∧
    (∀ (fields : List String) (line : String), fields.Nodup →
      parseRow fields line =
        (fields.zip (splitTabs line)).filter (fun kv => kv.2 ≠ "")) := by
  refine ⟨by decide, by decide, ?_, ?_⟩
  · intro lines fields row kv hrow hkv
    rcases List.mem_map.mp hrow with ⟨l, _, rfl⟩
    have := List.of_mem_filter hkv
    simpa using this
  · intro fields line hnd
    have hzip : ((fields.zip (splitTabs line)).map Prod.fst).Nodup :=
      hnd.sublist (zip_map_fst_sublist fields (splitTabs line))
    rw [parseRow, pyDict_of_nodup _ hzip]

theorem C4_witness :
    (["f1", "f2"] : List String).Nodup ∧
    parseRow ["f1", "f2"] "x\t" =
      ((["f1", "f2"].zip (splitTabs "x\t")).filter (fun kv => kv.2 ≠ "")) ∧
    [("f1", "a"), ("f3", "c")] ∈ pyParse ["a\t\tc"] ["f1", "f2", "f3"] ∧
    ("f1", "a") ∈ [("f1", "a"), ("f3", "c")] ∧ ("a" : String) ≠ "" := by
  refine ⟨by decide, C4_parse_zip_drop_empty.2.2.2 ["f1", "f2"] "x\t" (by decide),
    by decide, by decide,
    C4_parse_zip_drop_empty.2.2.1 ["a\t\tc"] ["f1", "f2", "f3"]
      [("f1", "a"), ("f3", "c")] ("f1", "a") (by decide) (by decide)⟩

/-! ### C6 -/

/-- The probe oracle of the C6 counterexample: the probe's reply holds the
marker as a proper substring of its single line, not as a whole line. -/
def g6cex : Gateway := fun _ => ⟨["session not found: mysession"], ""⟩

/-- A server constructed with no flags and an empty ambient environment. -/
def st0 : ServerState := Server.init none none none []

/-- C6 counterexample: the response text contains the marker
"session not found" as a substring, yet `has_session` returns `true`,
because the code tests list membership of the exact marker line. -/
theorem C6_counterexample :
    has_session g6cex st0 "mysession" = true ∧
    strContains (joinLines ((g6cex (hasSessionCmd st0 "mysession")).stdout))
      "session not found" = true := by
  decide

/-- C6 amended: `has_session` returns `false` exactly when some stdout line
of the probe is exactly equal to "failed to connect to server" or exactly
equal to "session not found" (Python list membership, not substring
containment); it always returns a boolean. -/
theorem C6_exact_line_markers (g : Gateway) (st : ServerState) (name : String) :
    has_session g st name = false ↔
      "failed to connect to server" ∈ (g (hasSessionCmd st name)).stdout ∨
      "session not found" ∈ (g (hasSessionCmd st name)).stdout := by
  simp only [has_session, hasSessionRes]
  split_ifs with h1 h2
  · simpa using Or.inl (List.elem_iff.mp h1)
  · simpa using Or.inr (List.elem_iff.mp h2)
  · have hA : "failed to connect to server" ∉ (g (hasSessionCmd st name)).stdout :=
      fun hm => h1 (List.elem_iff.mpr hm)
    have hB : "session not found" ∉ (g (hasSessionCmd st name)).stdout :=
      fun hm => h2 (List.elem_iff.mpr hm)
    simp [hA, hB]

/-! ### C8 -/

/-- C8: `has_clients` is true exactly when the client-row count strictly
exceeds one; in particular a single client row yields `false`. -/
theorem C8_has_clients_threshold (g : Gateway) (st : ServerState) :
    (has_clients g st = true ↔
      1 < (g (listClientsBareCmd st)).stdout.length) ∧
    ((g (listClientsBareCmd st)).stdout.length = 1 → has_clients g st = false) := by
  constructor
  · simp [has_clients, tmuxResultLen]
  · intro h
    simp [has_clients, tmuxResultLen, h]

/-- One-row and two-row `list-clients` oracles for the C8 witness. -/
def gRows1 : Gateway := fun _ => ⟨["/dev/ttys0"], ""⟩

def gRows2 : Gateway := fun _ => ⟨["/dev/ttys0", "/dev/ttys1"], ""⟩

theorem C8_witness :
    has_clients gRows1 st0 = false ∧ has_clients gRows2 st0 = true := by
  refine ⟨(C8_has_clients_threshold gRows1 st0).2 (by decide),
    (C8_has_clients_threshold gRows2 st0).1.mpr (by decide)⟩

/-! ### C9 -/

/-- C9: every call to `list_clients` fails with a NameError raised by its
first statement — `CLIENT_FORMATS` resolves neither in the module scope nor
among builtins — leaving the whole server state (in particular the client
collection) unchanged; moreover the constructor never initializes the
`_clients` attribute. -/
theorem C9_list_clients_name_error (g : Gateway) (st : ServerState)
    (sn sp cf : Option String) (environ : Dict) :
    (list_clients g st).1 = Except.error PyErr.nameError ∧
    (list_clients g st).2 = st ∧
    nameResolvable "CLIENT_FORMATS" = false ∧
    (Server.init sn sp cf environ)._clients = none := by
  have h : nameResolvable "CLIENT_FORMATS" = false := by decide
  refine ⟨?_, ?_, h, rfl⟩ <;> simp [list_clients, h]

lemma allocRecs_ref_ub : ∀ (n : Nat) (ds : List Dict) (r : Rec),
    r ∈ allocRecs n ds → r.ref < n + ds.length := by
  intro n ds
  induction ds generalizing n with
  | nil => intro r h; simp [allocRecs] at h
  | cons d ds ih =>
      intro r h
      rcases List.mem_cons.mp h with h | h
      · subst h; simp
      · have := ih (n + 1) r h
        simpa [Nat.add_comm, Nat.add_left_comm] using this

lemma update_sessions_ok_iff (g : Gateway) (st st' : ServerState) :
    _update_sessions g st = Except.ok st' ↔
      (g (listSessionsCmd st)).stderr = "" ∧
      st' = { st with
        _sessions := ⟨st._sessions.ref,
          allocRecs st.nextRef
            (pyParse ((g (listSessionsCmd st)).stdout) SESSION_FORMATS)⟩
        nextRef := st.nextRef +
          (pyParse ((g (listSessionsCmd st)).stdout) SESSION_FORMATS).length } := by
  by_cases h : (g (listSessionsCmd st)).stderr = ""
  · simp [_update_sessions, _list_sessions, h, eq_comm]
  · simp [_update_sessions, _list_sessions, h]

lemma update_windows_ok_iff (g : Gateway) (st st' : ServerState) :
    _update_windows g st = Except.ok st' ↔
      (g (listWindowsCmd st)).stderr = "" ∧
      st' = { st with
        _windows := ⟨st._windows.ref,
          allocRecs st.nextRef (pyParse ((g (listWindowsCmd st)).stdout) wformats)⟩
        nextRef := st.nextRef +
          (pyParse ((g (listWindowsCmd st)).stdout) wformats).length } := by
  by_cases h : (g (listWindowsCmd st)).stderr = ""
  · simp [_update_windows, h, eq_comm]
  · simp [_update_windows, h]

lemma update_panes_ok_iff (g : Gateway) (st st' : ServerState) :
    _update_panes g st = Except.ok st' ↔
      (g (listPanesCmd st)).stderr = "" ∧
      st' = { st with
        _panes := ⟨st._panes.ref,
          allocRecs st.nextRef (pyParse ((g (listPanesCmd st)).stdout) pformats)⟩
        nextRef := st.nextRef +
          (pyParse ((g (listPanesCmd st)).stdout) pformats).length } := by
  by_cases h : (g (listPanesCmd st)).stderr = ""
  · simp [_update_panes, h, eq_comm]
  · simp [_update_panes, h]

/-! ### C5 -/

/-- C5: after two successive session refreshes whose external outputs
differ, the session collection holds exactly the records parsed from the
second output (no merge), and no record of the first refresh's collection
shares its identity with any record of the second. -/
theorem C5_full_replace (g1 g2 : Gateway) (st st1 st2 : ServerState)
    (h1 : _update_sessions g1 st = Except.ok st1)
    (h2 : _update_sessions g2 st1 = Except.ok st2)
    (hdiff : (g1 (listSessionsCmd st)).stdout ≠ (g2 (listSessionsCmd st1)).stdout) :
    st2._sessions.items.map Rec.attrs =
      pyParse ((g2 (listSessionsCmd st1)).stdout) SESSION_FORMATS ∧
    ∀ r2 ∈ st2._sessions.items, ∀ r1 ∈ st1._sessions.items, r2.ref ≠ r1.ref := by
  obtain ⟨-, he1⟩ := (update_sessions_ok_iff g1 st st1).mp h1
  obtain ⟨-, he2⟩ := (update_sessions_ok_iff g2 st1 st2).mp h2
  subst he2
  constructor
  · simp [allocRecs_map_attrs]
  · intro r2 h2m r1 h1m
    simp only at h2m
    have hlb := allocRecs_ref_lb _ _ _ h2m
    subst he1
    simp only at h1m hlb
    have hub := allocRecs_ref_ub _ _ _ h1m
    omega

/-- Oracle whose every listing is empty. -/
def g5a : Gateway := fun _ => ⟨[], ""⟩

/-- Oracle whose every listing is the single row `alpha<TAB>$0`. -/
def g5b : Gateway := fun _ => ⟨["alpha\t$0"], ""⟩

/-- The state after refreshing `st0` against `g5b`'s session listing. -/
def st5b : ServerState :=
  { socket_name := none, socket_path := none, config_file := none,
    _sessions := ⟨2, [⟨3, [("session_name", "alpha"), ("session_id", "$0")]⟩]⟩,
    _windows := ⟨0, []⟩, _panes := ⟨1, []⟩, _clients := none,
    environ := [], nextRef := 4 }

theorem C5_witness :
    st5b._sessions.items.map Rec.attrs =
      pyParse ((g5b (listSessionsCmd st0)).stdout) SESSION_FORMATS ∧
    ∀ r2 ∈ st5b._sessions.items, ∀ r1 ∈ st0._sessions.items, r2.ref ≠ r1.ref :=
  C5_full_replace g5a g5b st0 st0 st5b (by decide) (by decide) (by decide)

/-! ### C10 -/

/-- C10: each of the three bulk refreshes mutates its collection's list
object in place — the list keeps its identity, so an alias taken before the
refresh observes exactly the post-refresh snapshot — and installs exactly
the records parsed from the new output. -/
theorem C10_in_place_refresh (g : Gateway) (st s w p : ServerState) :
    (_update_sessions g st = Except.ok s →
      s._sessions.ref = st._sessions.ref ∧
      s._sessions.items.map Rec.attrs =
        pyParse ((g (listSessionsCmd st)).stdout) SESSION_FORMATS) ∧
    (_update_windows g st = Except.ok w →
      w._windows.ref = st._windows.ref ∧
      w._windows.items.map Rec.attrs =
        pyParse ((g (listWindowsCmd st)).stdout) wformats) ∧
    (_update_panes g st = Except.ok p →
      p._panes.ref = st._panes.ref ∧
      p._panes.items.map Rec.attrs =
        pyParse ((g (listPanesCmd st)).stdout) pformats) := by
  refine ⟨?_, ?_, ?_⟩
  · intro h
    obtain ⟨-, he⟩ := (update_sessions_ok_iff g st s).mp h
    subst he
    simp [allocRecs_map_attrs]
  · intro h
    obtain ⟨-, he⟩ := (update_windows_ok_iff g st w).mp h
    subst he
    simp [allocRecs_map_attrs]
  · intro h
    obtain ⟨-, he⟩ := (update_panes_ok_iff g st p).mp h
    subst he
    simp [allocRecs_map_attrs]

/-- The state after refreshing `st0`'s windows against `g5b`. -/
def st5w : ServerState :=
  { socket_name := none, socket_path := none, config_file := none,
    _sessions := ⟨2, []⟩,
    _windows := ⟨0, [⟨3, [("session_name", "alpha"), ("session_id", "$0")]⟩]⟩,
    _panes := ⟨1, []⟩, _clients := none, environ := [], nextRef := 4 }

/-- The state after refreshing `st0`'s panes against `g5b`. -/
def st5p : ServerState :=
  { socket_name := none, socket_path := none, config_file := none,
    _sessions := ⟨2, []⟩, _windows := ⟨0, []⟩,
    _panes := ⟨1, [⟨3, [("session_name", "alpha"), ("session_id", "$0")]⟩]⟩,
    _clients := none, environ := [], nextRef := 4 }

theorem C10_witness :
    (st5b._sessions.ref = st0._sessions.ref ∧
      st5b._sessions.items.map Rec.attrs =
        pyParse ((g5b (listSessionsCmd st0)).stdout) SESSION_FORMATS) ∧
    (st5w._windows.ref = st0._windows.ref ∧
      st5w._windows.items.map Rec.attrs =
        pyParse ((g5b (listWindowsCmd st0)).stdout) wformats) ∧
    (st5p._panes.ref = st0._panes.ref ∧
      st5p._panes.items.map Rec.attrs =
        pyParse ((g5b (listPanesCmd st0)).stdout) pformats) := by
  have h := C10_in_place_refresh g5b st0 st5b st5w st5p
  exact ⟨h.1 (by decide), h.2.1 (by decide), h.2.2 (by decide)⟩

/-! ### C7 -/

/-- Oracle of the C7 counterexample: the kill succeeds silently, but the
follow-up `list-sessions` of the refresh reports stderr. -/
def g7cex : Gateway := fun args =>
  if args.contains "kill-session" then ⟨[], ""⟩ else ⟨[], "refresh failed"⟩

/-- C7 counterexample: `kill_session` raises an execution error carrying
stderr text even though the kill subcommand's stderr is empty — the error
comes from the refresh's own listing — so "raises iff the kill's stderr is
non-empty" is false. -/
theorem C7_counterexample :
    (g7cex (killSessionCmd st0 "x")).stderr = "" ∧
    (kill_session g7cex st0 "x").1 =
      Except.error (PyErr.execError "refresh failed") := by
  decide

/-- C7 amended: `kill_session` raises the execution error carrying the kill
subcommand's stderr when that is non-empty; when it is empty it performs a
full in-place session refresh before returning — an operation that itself
raises, carrying the listing's stderr, when that listing fails. -/
theorem C7_kill_refresh_semantics (g : Gateway) (st : ServerState) (name : String) :
    ((g (killSessionCmd st name)).stderr ≠ "" →
      kill_session g st name =
        (Except.error (PyErr.execError (g (killSessionCmd st name)).stderr), st)) ∧
    ((g (killSessionCmd st name)).stderr = "" →
      (g (listSessionsCmd st)).stderr ≠ "" →
      kill_session g st name =
        (Except.error (PyErr.execError (g (listSessionsCmd st)).stderr), st)) ∧
    ((g (killSessionCmd st name)).stderr = "" →
      (g (listSessionsCmd st)).stderr = "" →
      (kill_session g st name).1 = Except.ok () ∧
      (kill_session g st name).2._sessions.ref = st._sessions.ref ∧
      (kill_session g st name).2._sessions.items.map Rec.attrs =
        pyParse ((g (listSessionsCmd st)).stdout) SESSION_FORMATS) := by
  refine ⟨?_, ?_, ?_⟩
  · intro h
    simp [kill_session, h]
  · intro h1 h2
    simp [kill_session, h1, _update_sessions, _list_sessions, h2]
  · intro h1 h2
    simp [kill_session, h1, _update_sessions, _list_sessions, h2, allocRecs_map_attrs]

/-- Oracle whose every invocation fails with stderr `boom`. -/
def gKillErr : Gateway := fun _ => ⟨[], "boom"⟩

theorem C7_witness :
    kill_session gKillErr st0 "x" = (Except.error (PyErr.execError "boom"), st0) ∧
    (kill_session g5a st0 "x").1 = Except.ok () := by
  refine ⟨(C7_kill_refresh_semantics gKillErr st0 "x").1 (by decide),
    ((C7_kill_refresh_semantics g5a st0 "x").2.2 (by decide) (by decide)).1⟩

/-! ### C1 -/

lemma lookup_overwrite (d : Dict) (k v : String)
    (h : d.any (fun kv => kv.1 == k) = true) :
    (d.map (fun kv => if kv.1 == k then (k, v) else kv)).lookup k = some v := by
  induction d with
  | nil => simp at h
  | cons kv d ih =>
      by_cases hk : kv.1 = k
      · subst hk
        simp [List.lookup_cons]
      · have hb : (kv.1 == k) = false := beq_eq_false_iff_ne.mpr hk
        have hb2 : (k == kv.1) = false := beq_eq_false_iff_ne.mpr (fun hc => hk hc.symm)
        have h' : d.any (fun kv => kv.1 == k) = true := by
          rw [List.any_cons, hb] at h
          simpa using h
        rw [List.map_cons, if_neg (by simp [hb]), List.lookup_cons, hb2, ih h']

lemma lookup_append_fresh (d : Dict) (k v : String)
    (h : d.any (fun kv => kv.1 == k) = false) :
    (d ++ [(k, v)]).lookup k = some v := by
  induction d with
  | nil => simp
  | cons kv d ih =>
      rw [List.any_cons, Bool.or_eq_false_iff] at h
      have hb2 : (k == kv.1) = false :=
        beq_eq_false_iff_ne.mpr (fun hc => (beq_eq_false_iff_ne.mp h.1) hc.symm)
      rw [List.cons_append, List.lookup_cons, hb2, ih h.2]

lemma lookup_dictSet (d : Dict) (k v : String) :
    (dictSet d k v).lookup k = some v := by
  by_cases h : d.any (fun kv => kv.1 == k)
  · rw [dictSet, if_pos h]
    exact lookup_overwrite d k v h
  · rw [dictSet, if_neg h]
    exact lookup_append_fresh d k v (by rwa [Bool.not_eq_true] at h)

lemma update_sessions_ok_environ (g : Gateway) (st st' : ServerState)
    (h : _update_sessions g st = Except.ok st') : st'.environ = st.environ := by
  obtain ⟨-, he⟩ := (update_sessions_ok_iff g st st').mp h
  subst he
  rfl

lemma createPhase_ok_env (g : Gateway) (st : ServerState) (name : String)
    (att : Bool) (r : Rec)
    (h : (createSessionPhase g st name att).1 = Except.ok r) :
    (createSessionPhase g st name att).2.1.environ.lookup "TMUX" =
      st.environ.lookup "TMUX" := by
  unfold createSessionPhase at h ⊢
  by_cases hs : (g (newSessionCmd st name att)).stderr = ""
  · cases hout : (g (newSessionCmd st name att)).stdout with
    | nil => simp [hs, hout] at h
    | cons line rest =>
        by_cases htr : truthy (st.environ.lookup "TMUX") = true
        · simp only [hs, hout, htr, ne_eq, not_true_eq_false, if_false, ite_false,
            if_true, ite_true] at h ⊢
          split at h
          · simp at h
          · rename_i st4 heq
            have henv := update_sessions_ok_environ _ _ _ heq
            simp [henv, lookup_dictSet]
            cases he : st.environ.lookup "TMUX" with
            | none => rw [he] at htr; simp [truthy] at htr
            | some v => simp
        · simp only [hs, hout, htr, ne_eq, not_true_eq_false, if_false, ite_false,
            if_true, ite_true] at h ⊢
          split at h
          · simp at h
          · rename_i st4 heq
            have henv := update_sessions_ok_environ _ _ _ heq
            simp [henv]
  · simp [hs] at h

/-- Oracle whose existence probe reports no session and whose create
subcommand fails with stderr. -/
def g1cex : Gateway := fun args =>
  if args.contains "has-session" then ⟨["session not found"], ""⟩
  else ⟨[], "create failed"⟩

/-- A server whose ambient environment carries the `TMUX` marker. -/
def stTMUX : ServerState :=
  Server.init none none none [("TMUX", "/tmp/tmux-1000/default,123,0")]

/-- C1 counterexample: with the ambient `TMUX` marker set and the create
subcommand reporting non-empty stderr, `new_session` raises the execution
error with the marker still cleared — the restore is unreachable on that
exit path. -/
theorem C1_counterexample :
    stTMUX.environ.lookup "TMUX" = some "/tmp/tmux-1000/default,123,0" ∧
    (new_session g1cex stTMUX "demo" false false).1 =
      Except.error (PyErr.execError "create failed") ∧
    (new_session g1cex stTMUX "demo" false false).2.1.environ.lookup "TMUX" =
      none := by
  decide

/-- C1 amended: the original value of the ambient `TMUX` marker is restored
whenever `new_session` returns successfully; when the create subcommand
reports non-empty stderr (or prints no record line), the execution error is
raised before the restore and the marker remains cleared. -/
theorem C1_env_restored_on_success (g : Gateway) (st : ServerState)
    (name : String) (ks att : Bool) (r : Rec)
    (h : (new_session g st name ks att).1 = Except.ok r) :
    (new_session g st name ks att).2.1.environ.lookup "TMUX" =
      st.environ.lookup "TMUX" := by
  unfold new_session at h ⊢
  by_cases hp : hasSessionRes (g (hasSessionCmd st name)) = true
  · cases ks with
    | false => simp [hp] at h
    | true =>
        simp only [hp, if_true, ite_true] at h ⊢
        exact createPhase_ok_env g st name att r h
  · simp only [hp, if_false, ite_false] at h ⊢
    exact createPhase_ok_env g st name att r h

/-- Oracle under which `new_session` runs to success. -/
def gOkW : Gateway := fun args =>
  if args.contains "has-session" then ⟨["session not found"], ""⟩
  else ⟨["demo\t$1"], ""⟩

theorem C1_witness :
    (new_session gOkW stTMUX "demo" false false).2.1.environ.lookup "TMUX" =
      stTMUX.environ.lookup "TMUX" :=
  C1_env_restored_on_success gOkW stTMUX "demo" false false
    ⟨3, [("session_name", "demo"), ("session_id", "$1")]⟩ (by decide)

/-! ### C3 -/

lemma dash_append_ne (p x : String) (cs : List Char)
    (hp : p.data = '-' :: cs) : p ++ x ≠ "new-session" := by
  intro heq
  have hd : (p ++ x).data = "new-session".data := congrArg String.data heq
  rw [String.data_append, hp, List.cons_append] at hd
  have hn : "new-session".data = 'n' :: "ew-session".data := rfl
  rw [hn] at hd
  injection hd with h1 _
  exact absurd h1 (by decide)

lemma notin_cons_flag (pre x : String) (l : List String) (cs : List Char)
    (hp : pre.data = '-' :: cs) (h : "new-session" ∉ l) :
    "new-session" ∉ (pre ++ x) :: l := by
  intro hm
  rcases List.mem_cons.mp hm with hm | hm
  · exact dash_append_ne pre x cs hp hm.symm
  · exact h hm

lemma new_session_notin_tmuxArgs (st : ServerState) (args : List String)
    (h : "new-session" ∉ args) : "new-session" ∉ Server.tmuxArgs st args := by
  by_cases c1 : truthy st.socket_name = true <;>
    by_cases c2 : truthy st.socket_path = true <;>
      by_cases c3 : truthy st.config_file = true <;>
        simp only [Server.tmuxArgs, c1, c2, c3, if_true, ite_true, if_false,
          ite_false] <;>
        (repeat refine notin_cons_flag _ _ _ _ rfl ?_) <;> exact h

lemma createPhase_trace (g : Gateway) (st : ServerState) (name : String)
    (att : Bool) :
    ∃ rest, (createSessionPhase g st name att).2.2 =
      newSessionCmd st name att :: rest := by
  unfold createSessionPhase
  by_cases hs : (g (newSessionCmd st name att)).stderr = ""
  · cases hout : (g (newSessionCmd st name att)).stdout with
    | nil => exact ⟨[], by simp [hs, hout]⟩
    | cons line rest =>
        by_cases htr : truthy (st.environ.lookup "TMUX") = true
        · simp only [hs, hout, htr, ne_eq, not_true_eq_false, if_false, ite_false,
            if_true, ite_true]
          split
          · exact ⟨_, rfl⟩
          · exact ⟨_, rfl⟩
        · simp only [hs, hout, htr, ne_eq, not_true_eq_false, if_false, ite_false,
            if_true, ite_true]
          split
          · exact ⟨_, rfl⟩
          · exact ⟨_, rfl⟩
  · exact ⟨[], by simp [hs]⟩

lemma createPhase_not_exists (g : Gateway) (st : ServerState) (name : String)
    (att : Bool) (m : String) :
    (createSessionPhase g st name att).1 ≠
      Except.error (PyErr.sessionExists m) := by
  unfold createSessionPhase
  by_cases hs : (g (newSessionCmd st name att)).stderr = ""
  · cases hout : (g (newSessionCmd st name att)).stdout with
    | nil => simp [hs, hout]
    | cons line rest =>
        by_cases htr : truthy (st.environ.lookup "TMUX") = true <;>
          simp only [hs, hout, htr, ne_eq, not_true_eq_false, if_false, ite_false,
            if_true, ite_true] <;>
          split <;> simp
  · simp [hs]

/-- Oracle whose existence probe reports the session as present. -/
def g3w : Gateway := fun args =>
  if args.contains "has-session" then ⟨[], ""⟩ else ⟨["demo\t$1"], ""⟩

/-- C3 counterexample: when the target session exists and
`kill_session=False`, `new_session` does not raise the
session-already-exists error: the name `TmuxSessionExists` used by the
raise statement resolves neither in the module scope nor among builtins —
the same unbound-name class as `CLIENT_FORMATS` — so the branch raises a
NameError instead. -/
theorem C3_counterexample :
    nameResolvable "TmuxSessionExists" = false ∧
    (new_session g3w st0 "demo" false false).1 = Except.error PyErr.nameError ∧
    (new_session g3w st0 "demo" false false).1 ≠
      Except.error (PyErr.sessionExists "Session named demo exists") := by
  decide

/-- C3 amended: when `has_session` reports that the target exists,
`new_session` without `kill_session` raises a NameError — the
`TmuxSessionExists` name of its raise statement is unbound in the module —
rather than a session-exists error, leaves the state untouched and issues
no `new-session` subcommand; with `kill_session` it issues the kill
subcommand right after the probe and before the create subcommand, and
never raises a session-exists error. -/
theorem C3_kill_existing_semantics (g : Gateway) (st : ServerState)
    (name : String) (att : Bool)
    (h : hasSessionRes (g (hasSessionCmd st name)) = true) :
    ((new_session g st name false att).1 = Except.error PyErr.nameError ∧
      (new_session g st name false att).2.1 = st ∧
      ∀ c ∈ (new_session g st name false att).2.2, "new-session" ∉ c) ∧
    ((∃ rest, (new_session g st name true att).2.2 =
        hasSessionCmd st name :: killSessionCmd st name ::
          newSessionCmd st name att :: rest) ∧
      ∀ m, (new_session g st name true att).1 ≠
        Except.error (PyErr.sessionExists m)) := by
  refine ⟨⟨?_, ?_, ?_⟩, ?_, ?_⟩
  · simp [new_session, h]
  · simp [new_session, h]
  · intro c hc
    simp [new_session, h] at hc
    subst hc
    refine new_session_notin_tmuxArgs st _ ?_
    intro hm
    rcases List.mem_cons.mp hm with hm | hm
    · exact absurd hm (by decide)
    · rcases List.mem_cons.mp hm with hm | hm
      · exact dash_append_ne "-t" name ['t'] rfl hm.symm
      · simp at hm
  · obtain ⟨rest, hr⟩ := createPhase_trace g st name att
    exact ⟨rest, by simp [new_session, h, hr]⟩
  · intro m
    simp only [new_session, h, if_true, ite_true]
    exact createPhase_not_exists g st name att m

theorem C3_witness :
    (new_session g3w st0 "demo" false false).1 = Except.error PyErr.nameError ∧
    (new_session g3w st0 "demo" false false).2.1 = st0 ∧
    (new_session g3w st0 "demo" true false).1 ≠
      Except.error (PyErr.sessionExists "Session named demo exists") := by
  have h3 := C3_kill_existing_semantics g3w st0 "demo" false (by decide)
  exact ⟨h3.1.1, h3.1.2.1, h3.2.2 "Session named demo exists"⟩

/-! ### C2 -/

/-- The symmetric difference of (attribute, value) pairs between a new and
an old record, as the spec's words describe the patch: pairs present in
exactly one of the two records. -/
def symmDiffPairs (n o : Dict) : Dict := diffFor n o ++ diffFor o n

/-- The C2 counterexample's old client collection: one surviving client and
two clients that the new poll no longer reports. -/
def c2old : List Rec :=
  [⟨0, [("client_tty", "/dev/ttys0"), ("client_width", "80")]⟩,
   ⟨1, [("client_tty", "/dev/ttys1")]⟩,
   ⟨2, [("client_tty", "/dev/ttys2")]⟩]

/-- The C2 counterexample's freshly parsed new client records. -/
def c2new : List Rec :=
  [⟨3, [("client_tty", "/dev/ttys0"), ("client_width", "100")]⟩]

/-- C2 counterexample: with two consecutive deleted clients, the
reconciliation removes the first but skips and keeps the record keyed
`/dev/ttys2` whose tty is only in the old set (the loop removes while
iterating); and the patch the code applies to the common record
(`client_width` ↦ `100`, the pairs of new minus old) is not the symmetric
difference of pairs, which also holds the stale pair
(`client_width`, `80`). -/
theorem C2_counterexample :
    syncClients c2old c2new = Except.ok
      [⟨0, [("client_tty", "/dev/ttys0"), ("client_width", "100")]⟩,
       ⟨2, [("client_tty", "/dev/ttys2")]⟩] ∧
    (∃ r ∈ (syncClients c2old c2new).toOption.getD [],
      ttyOf r = some "/dev/ttys2") ∧
    ("client_width", "80") ∉
      diffFor [("client_tty", "/dev/ttys0"), ("client_width", "100")]
        [("client_tty", "/dev/ttys0"), ("client_width", "80")] ∧
    ("client_width", "80") ∈
      symmDiffPairs [("client_tty", "/dev/ttys0"), ("client_width", "100")]
        [("client_tty", "/dev/ttys0"), ("client_width", "80")] := by
  refine ⟨by decide, ⟨⟨2, [("client_tty", "/dev/ttys2")]⟩, by decide, by decide⟩,
    by decide, by decide⟩

lemma set_get_self {α : Type} : ∀ (l : List α) (i : Nat) (h : i < l.length),
    l.set i (l.get ⟨i, h⟩) = l
  | _ :: _, 0, _ => rfl
  | a :: l, i + 1, h => by
      simp only [List.set, List.get]
      rw [set_get_self l i (by simpa using h)]

lemma take_succ_set {α : Type} : ∀ (l : List α) (i : Nat) (a : α), i < l.length →
    (l.set i a).take (i + 1) = l.take i ++ [a]
  | _ :: _, 0, a, _ => by simp
  | b :: l, i + 1, a, h => by
      simp only [List.set, List.take, List.cons_append, List.cons.injEq, true_and]
      exact take_succ_set l i a (by simpa using h)

lemma patchByRef_id (L : List Rec) (ρ : Nat) (patch : Dict)
    (h : ρ ∉ L.map Rec.ref) : patchByRef L ρ patch = L := by
  induction L with
  | nil => rfl
  | cons r L ih =>
      simp only [List.map_cons, List.mem_cons, not_or] at h
      have hb : (r.ref == ρ) = false := beq_eq_false_iff_ne.mpr (fun hc => h.1 hc.symm)
      simp only [patchByRef, List.map_cons, hb, Bool.false_eq_true, if_false,
        ite_false, List.cons.injEq, true_and]
      exact ih h.2

lemma patchByRef_eq_set : ∀ (L : List Rec) (i : Nat) (h : i < L.length),
    (L.map Rec.ref).Nodup → ∀ (patch : Dict),
    patchByRef L (L.get ⟨i, h⟩).ref patch =
      L.set i ⟨(L.get ⟨i, h⟩).ref, pyUpdate (L.get ⟨i, h⟩).attrs patch⟩ := by
  intro L
  induction L with
  | nil => intro i h; simp at h
  | cons r L ih =>
      intro i h hnd patch
      rw [List.map_cons] at hnd
      obtain ⟨hr, hnd'⟩ := List.nodup_cons.mp hnd
      cases i with
      | zero =>
          have hget : (r :: L).get ⟨0, h⟩ = r := rfl
          rw [hget, List.set_cons_zero]
          show (if r.ref == r.ref then
              ({ r with attrs := pyUpdate r.attrs patch } : Rec) else r) ::
              patchByRef L r.ref patch = _
          rw [beq_self_eq_true]
          simp only [ite_true, List.cons.injEq, true_and]
          exact patchByRef_id L r.ref patch hr
      | succ i =>
          have hi : i < L.length := by simpa using h
          have hget : (r :: L).get ⟨i + 1, h⟩ = L.get ⟨i, hi⟩ := rfl
          have hmem : L.get ⟨i, hi⟩ ∈ L := List.get_mem L i hi
          have hne : (r.ref == (L.get ⟨i, hi⟩).ref) = false := by
            refine beq_eq_false_iff_ne.mpr (fun hc => hr ?_)
            rw [hc]
            exact List.mem_map_of_mem Rec.ref hmem
          rw [hget, List.set_cons_succ]
          show (if r.ref == (L.get ⟨i, hi⟩).ref then
              ({ r with attrs := pyUpdate r.attrs patch } : Rec) else r) ::
              patchByRef L (L.get ⟨i, hi⟩).ref patch = _
          rw [hne]
          simp only [Bool.false_eq_true, ite_false, List.cons.injEq, true_and]
          exact ih i hi hnd' patch

/-- The per-record patch step the loop performs when nothing is deleted. -/
def loopPatch (intersectK : List (Option String)) (diffOf : Option String → Dict)
    (r : Rec) : Rec :=
  if intersectK.contains (ttyOf r) then
    { r with attrs := pyUpdate r.attrs (diffOf (ttyOf r)) } else r

lemma syncLoop_no_delete (intersectK : List (Option String))
    (diffOf : Option String → Dict) :
    ∀ (fuel : Nat) (L : List Rec) (i : Nat),
      L.length - i ≤ fuel → (L.map Rec.ref).Nodup →
      syncLoop [] intersectK diffOf fuel L i =
        L.take i ++ (L.drop i).map (loopPatch intersectK diffOf) := by
  intro fuel
  induction fuel with
  | zero =>
      intro L i hf hnd
      have hle : L.length ≤ i := by omega
      simp [syncLoop, List.take_of_length_le hle, List.drop_eq_nil_of_le hle]
  | succ fuel ih =>
      intro L i hf hnd
      by_cases h : i < L.length
      · rw [syncLoop, dif_pos h]
        simp only [List.contains, List.elem, Bool.false_eq_true, if_false, ite_false]
        set s := L.get ⟨i, h⟩ with hs
        set p := loopPatch intersectK diffOf s with hp
        have hL2 : (if intersectK.contains (ttyOf s) then
            patchByRef L s.ref (diffOf (ttyOf s)) else L) = L.set i p := by
          by_cases hc : intersectK.contains (ttyOf s) = true
          · rw [if_pos hc, hp, loopPatch, if_pos hc, hs]
            exact patchByRef_eq_set L i h hnd _
          · rw [if_neg hc, hp, loopPatch, if_neg hc, hs]
            exact (set_get_self L i h).symm
        rw [hL2]
        have hpref : p.ref = s.ref := by
          rw [hp, loopPatch]
          split <;> rfl
        have hnd2 : ((L.set i p).map Rec.ref).Nodup := by
          rw [List.map_set, hpref]
          have hsr : s.ref = (L.map Rec.ref).get ⟨i, by simpa using h⟩ := by
            rw [hs]
            simp [List.get_eq_getElem, List.getElem_map]
          rw [hsr, set_get_self]
          exact hnd
        rw [ih (L.set i p) (i + 1) (by simp only [List.length_set]; omega) hnd2]
        rw [take_succ_set L i p h]
        rw [List.drop_set, if_pos (Nat.lt_succ_self i)]
        rw [List.drop_eq_getElem_cons h, List.map_cons]
        have hgi : L[i] = s := by
          rw [hs]
          simp [List.get_eq_getElem]
        rw [hgi]
        rw [show loopPatch intersectK diffOf s = p from hp.symm]
        simp [List.append_assoc]
      · rw [syncLoop, dif_neg h]
        have hle : L.length ≤ i := Nat.le_of_not_lt h
        rw [List.take_of_length_le hle, List.drop_eq_nil_of_le hle]
        simp

lemma recDictSet_fresh (d : List (Option String × Rec)) (k : Option String) (v : Rec)
    (h : d.any (fun kv => kv.1 == k) = false) : recDictSet d k v = d ++ [(k, v)] := by
  simp [recDictSet, h]

lemma foldl_recDictSet_fresh :
    ∀ (rs : List Rec) (acc : List (Option String × Rec)),
      (∀ r ∈ rs, ∀ kv ∈ acc, kv.1 ≠ ttyOf r) → (rs.map ttyOf).Nodup →
      rs.foldl (fun d r => recDictSet d (ttyOf r) r) acc =
        acc ++ rs.map (fun r => (ttyOf r, r)) := by
  intro rs
  induction rs with
  | nil => intro acc _ _; simp
  | cons r rs ih =>
      intro acc hfresh hnd
      have hany : acc.any (fun kv => kv.1 == ttyOf r) = false := by
        rw [List.any_eq_false]
        intro kv hkv
        simpa using hfresh r (by simp) kv hkv
      rw [List.foldl_cons, recDictSet_fresh acc (ttyOf r) r hany,
        ih (acc ++ [(ttyOf r, r)]) ?_ ?_]
      · simp
      · intro r2 h2 kv hkv
        rcases List.mem_append.mp hkv with hkv | hkv
        · exact hfresh r2 (List.mem_cons_of_mem _ h2) kv hkv
        · have hk : ttyOf r ∉ rs.map ttyOf := by
            rw [List.map_cons] at hnd
            exact (List.nodup_cons.mp hnd).1
          have hmem : ttyOf r2 ∈ rs.map ttyOf := List.mem_map_of_mem _ h2
          simp only [List.mem_singleton] at hkv
          subst hkv
          intro hc
          have hc2 : ttyOf r = ttyOf r2 := hc
          rw [hc2] at hk
          exact hk hmem
      · rw [List.map_cons] at hnd
        exact (List.nodup_cons.mp hnd).2

lemma recDict_of_nodup (rs : List Rec) (h : (rs.map ttyOf).Nodup) :
    recDict rs = rs.map (fun r => (ttyOf r, r)) := by
  simpa using foldl_recDictSet_fresh rs [] (by simp) h

lemma lookup_pairs_self : ∀ (rs : List Rec), (rs.map ttyOf).Nodup →
    ∀ r ∈ rs, (rs.map (fun r => (ttyOf r, r))).lookup (ttyOf r) = some r := by
  intro rs
  induction rs with
  | nil => intro _ r hr; simp at hr
  | cons r0 rs ih =>
      intro hnd r hr
      rw [List.map_cons] at hnd
      obtain ⟨h0, hnd'⟩ := List.nodup_cons.mp hnd
      rcases List.mem_cons.mp hr with hr | hr
      · subst hr
        rw [List.map_cons, List.lookup_cons_self]
      · have hne : ttyOf r ≠ ttyOf r0 := by
          intro hc
          rw [← hc] at h0
          exact h0 (List.mem_map_of_mem _ hr)
        have hb : (ttyOf r == ttyOf r0) = false := beq_eq_false_iff_ne.mpr hne
        rw [List.map_cons]
        simp only [List.lookup_cons, hb]
        exact ih hnd' r hr

lemma lookup_some_of_mem_keys {β : Type} (d : List (Option String × β))
    (k : Option String) (h : k ∈ d.map Prod.fst) : ∃ v, d.lookup k = some v := by
  induction d with
  | nil => simp at h
  | cons kv d ih =>
      obtain ⟨a, b⟩ := kv
      by_cases hk : k = a
      · subst hk
        exact ⟨b, List.lookup_cons_self⟩
      · have hb : (k == a) = false := beq_eq_false_iff_ne.mpr hk
        have h' : k ∈ d.map Prod.fst := by
          simp only [List.map_cons] at h
          rcases List.mem_cons.mp h with hc | hc
          · exact absurd hc hk
          · exact hc
        obtain ⟨v, hv⟩ := ih h'
        refine ⟨v, ?_⟩
        simp only [List.lookup_cons, hb]
        exact hv

/-- The in-place patch the reconciliation applies to one common record: keep
the object's identity, update it with exactly the (attribute, value) pairs
of the new record that are not pairs of the old one. -/
def patchStep (newD : List (Option String × Rec)) (r : Rec) : Rec :=
  match newD.lookup (ttyOf r) with
  | some nr => { r with attrs := pyUpdate r.attrs (diffFor nr.attrs r.attrs) }
  | none => r

/-- C2 amended: for a refresh in which every old record's `client_tty` is
still present in the new set (no deletions, so the remove-while-iterating
skip cannot trigger), with unique ttys and object identities: each existing
record is patched in place — identity preserved — with the one-sided
difference of pairs (new minus old, not the symmetric difference), and the
records whose keys are only in the new set are appended. -/
theorem C2_one_sided_patch (oldC newRecs : List Rec)
    (hnew : ∀ r ∈ newRecs, (ttyOf r).isSome)
    (hkeys : ∀ r ∈ oldC, ttyOf r ∈ (recDict newRecs).map (fun p => p.1))
    (hOldTty : (oldC.map ttyOf).Nodup)
    (hOldRef : (oldC.map Rec.ref).Nodup) :
    syncClients oldC newRecs = Except.ok
      (oldC.map (patchStep (recDict newRecs)) ++
        ((recDict newRecs).filter
          (fun p => !(oldC.map ttyOf).contains p.1)).map (fun p => p.2)) := by
  have hany : (newRecs.any (fun r => (ttyOf r).isNone)) = false := by
    rw [List.any_eq_false]
    intro r hr
    intro hno
    have h2 := hnew r hr
    rw [Option.isNone_iff_eq_none] at hno
    rw [hno] at h2
    simp at h2
  have holdD : recDict oldC = oldC.map (fun r => (ttyOf r, r)) :=
    recDict_of_nodup oldC hOldTty
  have holdKeys : (oldC.map (fun r => (ttyOf r, r))).map (fun p => p.1) =
      oldC.map ttyOf := by
    rw [List.map_map]
    rfl
  simp only [syncClients, hany, Bool.false_eq_true, if_false, ite_false]
  rw [holdD, holdKeys]
  have hdel : ((oldC.map ttyOf).filter
      (fun k => !((recDict newRecs).map (fun p => p.1)).contains k)) = [] := by
    rw [List.filter_eq_nil_iff]
    intro k hk
    rcases List.mem_map.mp hk with ⟨r, hr, rfl⟩
    have hc : ((recDict newRecs).map (fun p => p.1)).contains (ttyOf r) = true :=
      List.elem_iff.mpr (hkeys r hr)
    simp only [hc]
    decide
  rw [hdel]
  rw [syncLoop_no_delete _ _ (oldC.length + 1) oldC 0 (by omega) hOldRef]
  simp only [List.take_zero, List.drop_zero, List.nil_append, Except.ok.injEq]
  congr 1
  · apply List.map_congr_left
    intro r hr
    obtain ⟨nr, hnr⟩ :=
      lookup_some_of_mem_keys (recDict newRecs) (ttyOf r) (hkeys r hr)
    have holdLook : (oldC.map (fun r => (ttyOf r, r))).lookup (ttyOf r) = some r :=
      lookup_pairs_self oldC hOldTty r hr
    have hcon : ((((recDict newRecs).map (fun p => p.1)).filter
        (fun k => (oldC.map ttyOf).contains k)).contains (ttyOf r)) = true := by
      apply List.elem_iff.mpr
      apply List.mem_filter.mpr
      exact ⟨hkeys r hr, List.elem_iff.mpr (List.mem_map_of_mem _ hr)⟩
    simp only [loopPatch, hcon, if_true, ite_true, patchStep, hnr, holdLook]
  · congr 1
    apply List.filter_congr
    intro p hp
    have hpk : p.1 ∈ (recDict newRecs).map (fun q => q.1) :=
      List.mem_map_of_mem _ hp
    by_cases hm : (oldC.map ttyOf).contains p.1
    · have hcr : ((((recDict newRecs).map (fun q => q.1)).filter
          (fun k => !(oldC.map ttyOf).contains k)).contains p.1) = false := by
        rw [Bool.eq_false_iff]
        intro hc
        have hmem := (List.mem_filter.mp (List.elem_iff.mp hc)).2
        rw [hm] at hmem
        simp at hmem
      simp only [hcr, hm]
      decide
    · have hm' : (oldC.map ttyOf).contains p.1 = false := by
        rwa [Bool.not_eq_true] at hm
      have hcr : ((((recDict newRecs).map (fun q => q.1)).filter
          (fun k => !(oldC.map ttyOf).contains k)).contains p.1) = true := by
        apply List.elem_iff.mpr
        apply List.mem_filter.mpr
        refine ⟨hpk, ?_⟩
        rw [hm']
        rfl
      simp only [hcr, hm']
      decide

/-- Witness data: one retained client whose width changes across the poll. -/
def c2wOld : List Rec := [⟨0, [("client_tty", "/dev/ttys0"), ("client_width", "80")]⟩]

/-- Witness data: the new poll's single record for the same tty. -/
def c2wNew : List Rec := [⟨5, [("client_tty", "/dev/ttys0"), ("client_width", "100")]⟩]

theorem C2_witness :
    syncClients c2wOld c2wNew = Except.ok
      (c2wOld.map (patchStep (recDict c2wNew)) ++
        ((recDict c2wNew).filter
          (fun p => !(c2wOld.map ttyOf).contains p.1)).map (fun p => p.2)) :=
  C2_one_sided_patch c2wOld c2wNew (by decide) (by decide) (by decide) (by decide)

end Tmuxp
